import Mathlib

/-!
Shallow embedding of the change-detection and delivery pipeline of the
hellquotes bot (src/watcher.rs, src/main.rs).

The external quotes store (the attached read-only sqlite table
`quotes.quotes`) is modelled as a `List Quote` in its enumeration order:
the source queries never state an `ORDER BY`, so the row order the store
presents is exactly the list order.  The in-memory table
`main.seen_quotes (id INTEGER PRIMARY KEY)` is a set of ids, modelled as
a `Finset Int`.
-/

namespace Hellquotes

/-- The `Quote` struct of src/main.rs: `id: i64, text: String, tags: Option<String>`. -/
structure Quote where
  id : Int
  text : String
  tags : Option String
deriving DecidableEq, Repr

/-- The id column of the store: `SELECT id from quotes.quotes` as a list. -/
def quoteIds (store : List Quote) : List Int :=
  store.map Quote.id

/-- The id set currently present in the store. -/
def idsFinset (store : List Quote) : Finset Int :=
  (store.map Quote.id).toFinset

/-- `QuoteWatcher::update_seen` (src/watcher.rs:31):
`INSERT OR REPLACE INTO main.seen_quotes SELECT id from quotes.quotes`.
Every id currently in the store is inserted into the seen set (replacing on
conflict, i.e. set union). -/
def update_seen (seen : Finset Int) (store : List Quote) : Finset Int :=
  seen ∪ idsFinset store

/-- `QuoteWatcher::get_new_and_update_seen` (src/watcher.rs:39): inside one
transaction, `SELECT id, quote, tags FROM quotes.quotes WHERE id NOT IN
(SELECT id FROM main.seen_quotes)` collects the rows whose id is not yet
seen (in store enumeration order), then `update_seen` runs, and the
transaction commits.  Returns the fetched batch and the committed seen set. -/
def get_new_and_update_seen (seen : Finset Int) (store : List Quote) :
    List Quote × Finset Int :=
  (store.filter (fun q => decide (q.id ∉ seen)), update_seen seen store)

/-- The seen set built by `QuoteWatcher::new` (src/watcher.rs:20) once the
attach succeeded: `CREATE TABLE main.seen_quotes ...` (empty set) followed by
`Self::update_seen(&db_conn)`. -/
def initialSeen (store : List Quote) : Finset Int :=
  update_seen ∅ store

/-- The sequence of batches produced by successive drains of the worker loop
(src/watcher.rs:115): each list element is the store's contents at the time
of that drain; the seen set is threaded from one drain to the next. -/
def runDrains : Finset Int → List (List Quote) → List (List Quote)
  | _, [] => []
  | seen, store :: rest =>
    (get_new_and_update_seen seen store).1 ::
      runDrains (get_new_and_update_seen seen store).2 rest

/-- The store contents observed at successive drains when, between any two
consecutive drains, the external writer only appends records: starting from
`base`, drain `i` sees `base ++ apps[0] ++ ... ++ apps[i]`. -/
def appendRun : List Quote → List (List Quote) → List (List Quote)
  | _, [] => []
  | base, a :: rest => (base ++ a) :: appendRun (base ++ a) rest

/-- The spec's description of the seen-set update, for comparison with the
code's `update_seen`: compute `new_ids = all_ids_in_store − SeenTracker` and
merge only those `new_ids` into the tracker. -/
def spec_merge_step (seen : Finset Int) (store : List Quote) : Finset Int :=
  seen ∪ (idsFinset store \ seen)

/-- Outcome of the worker loop of the `db_watcher` thread
(src/watcher.rs:115): either the loop exited because `blocking_recv`
returned `None` (WakeChannel closed and drained), or an `expect` fired
(`"Couldn't poll quotes"` on a query/commit error, `"Couldn't send quote"`
when RecordChannel's consumer is gone).  In both cases the batches already
forwarded are recorded. -/
inductive LoopResult where
  | exited (batches : List (List Quote))
  | fatal (msg : String) (batches : List (List Quote))
deriving DecidableEq, Repr

/-- The worker loop `while let Some(()) = notify_rx.blocking_recv() { ... }`
(src/watcher.rs:115).  Each list element is one successfully received wake
signal, carrying the outcome of that drain's storage transaction (the store
snapshot it observed, or a storage error); the end of the list is the
channel reporting closure.  `recordOpen` is whether RecordChannel's consumer
is still alive, so whether `quote_tx.send` succeeds. -/
def workerLoop (recordOpen : Bool) :
    Finset Int → List (Except String (List Quote)) → LoopResult
  | _, [] => .exited []
  | _, .error _ :: _ => .fatal "Couldn't poll quotes" []
  | seen, .ok store :: rest =>
    let step := get_new_and_update_seen seen store
    if !recordOpen && !step.1.isEmpty then
      .fatal "Couldn't send quote" []
    else
      match workerLoop recordOpen step.2 rest with
      | .exited bs => .exited (step.1 :: bs)
      | .fatal m bs => .fatal m (step.1 :: bs)

/-- Outcome of the whole `db_watcher` thread body (src/watcher.rs:112):
`QuoteWatcher::new(&db_path).expect("Couldn't create watcher")` runs first;
if opening/attaching the store fails, the thread panics before its receive
loop ever runs.  In every case the vital shutdown token held by the thread
is dropped when the thread ends. -/
inductive WorkerResult where
  | startupPanic (msg : String)
  | looped (result : LoopResult)
deriving DecidableEq, Repr

/-- The `db_watcher` thread body (src/watcher.rs:112): attaching the store
yields its initial contents (or an error); on success the seen set is
initialized by `QuoteWatcher::new` and the receive loop runs. -/
def workerThread (attach : Except String (List Quote)) (recordOpen : Bool)
    (inputs : List (Except String (List Quote))) : WorkerResult :=
  match attach with
  | .error e => .startupPanic e
  | .ok store => .looped (workerLoop recordOpen (initialSeen store) inputs)

/-- The records the worker forwarded onto RecordChannel over its lifetime. -/
def workerForwarded : WorkerResult → List Quote
  | .startupPanic _ => []
  | .looped (.exited bs) => bs.flatten
  | .looped (.fatal _ bs) => bs.flatten

/-- Number of drains the worker performed. -/
def workerDrainCount : WorkerResult → Nat
  | .startupPanic _ => 0
  | .looped (.exited bs) => bs.length
  | .looped (.fatal _ bs) => bs.length

/-- Number of `blocking_recv` calls the worker makes when the wake channel
is closed with the given pending inputs: one per pending signal plus the
final call that observes closure. -/
def recvCalls (inputs : List (Except String (List Quote))) : Nat :=
  inputs.length + 1

/-- What the setup closure of `main` (src/main.rs:334) has started, in its
sequential order: `create_poller` spawns the `db_watcher` thread and builds
the delivery task, `tokio::spawn(poller_task)` starts the DeliveryPump,
then `configure_fs_watcher` registers the file watch.  Note that
`create_poller` returns `Ok` whether or not `QuoteWatcher::new` later fails
on the spawned thread, so the pump is spawned unconditionally. -/
structure SetupTrace where
  worker : WorkerResult
  deliveryPumpSpawned : Bool
  fsWatcherRegistered : Bool
  setupError : Option String
deriving DecidableEq, Repr

/-- The setup sequence of `main` (src/main.rs:334-355): spawn the worker
thread (its store attach outcome is `attach`), spawn the DeliveryPump task,
then register the file watch (outcome `watchReg`). -/
def setup (attach : Except String (List Quote)) (watchReg : Except String Unit)
    (recordOpen : Bool) (inputs : List (Except String (List Quote))) : SetupTrace :=
  let worker := workerThread attach recordOpen inputs
  match watchReg with
  | .error e =>
    { worker := worker, deliveryPumpSpawned := true,
      fsWatcherRegistered := false, setupError := some e }
  | .ok _ =>
    { worker := worker, deliveryPumpSpawned := true,
      fsWatcherRegistered := true, setupError := none }

/-- Observable events of one drain iteration of the worker
(src/watcher.rs:115-121), in the order the code performs them. -/
inductive Event where
  | queryRows (batch : List Quote)
  | insertSeen
  | commit
  | fatalExit (msg : String)
  | forward (q : Quote)
deriving DecidableEq, Repr

/-- Event trace of one drain: inside the transaction the unseen rows are
collected and `update_seen` runs; then `tx.commit()`; only if the commit
succeeded does the `for quote in ...` loop of `create_poller` forward the
fetched rows, in batch order.  A failed commit fires the
`expect("Couldn't poll quotes")` and nothing is forwarded. -/
def drainTrace (commitOk : Bool) (seen : Finset Int) (store : List Quote) :
    List Event :=
  if commitOk then
    [Event.queryRows (get_new_and_update_seen seen store).1, Event.insertSeen,
      Event.commit] ++ ((get_new_and_update_seen seen store).1).map Event.forward
  else
    [Event.queryRows (get_new_and_update_seen seen store).1, Event.insertSeen,
      Event.fatalExit "Couldn't poll quotes"]

/-- State of the bounded WakeChannel (`mpsc::channel(3)`,
src/watcher.rs:104): number of buffered signals, its capacity, and whether
the consumer has been dropped. -/
structure WakeChannel where
  buffered : Nat
  capacity : Nat
  closed : Bool
deriving DecidableEq, Repr

/-- Result of `Sender::try_send`. -/
inductive TrySendResult where
  | sent
  | full
  | closed
deriving DecidableEq, Repr

/-- `sender.try_send(())`: non-blocking; fails with `Closed` when the
receiver is gone, with `Full` when the buffer is at capacity, and otherwise
enqueues one signal. -/
def try_send (ch : WakeChannel) : WakeChannel × TrySendResult :=
  if ch.closed then (ch, .closed)
  else if ch.capacity ≤ ch.buffered then (ch, .full)
  else ({ ch with buffered := ch.buffered + 1 }, .sent)

/-- The notification callback installed by `configure_fs_watcher`
(src/watcher.rs:84): `move |_res| { sender.try_send(()).ok(); }` — one
`try_send` per event, the result discarded, so the callback is total and
returns no error. -/
def fs_watcher_callback (ch : WakeChannel) : WakeChannel :=
  (try_send ch).1

/-- `truncate_str` (src/main.rs:217): `s.char_indices().nth(max_chars)` is
`None` when `s` has at most `max_chars` characters, in which case `s` is
returned whole; otherwise it is `Some((idx, _))` with `idx` the byte index
of character number `max_chars`, and `&s[..idx]` is the first `max_chars`
characters. -/
def truncate_str (s : String) (max_chars : Nat) : String :=
  match s.data.drop max_chars with
  | [] => s
  | _ :: _ => { data := s.data.take max_chars }

/-- The embed that `send_quote` (src/main.rs:224) builds for one quote. -/
structure DiscordEmbed where
  title : String
  description : String
  color : Nat
  footerText : String
deriving DecidableEq, Repr

/-- `send_quote` (src/main.rs:224): the quote text truncated to 1600
characters becomes the title, the tags (empty when absent) truncated to 200
characters go into the footer. -/
def send_quote (q : Quote) : DiscordEmbed :=
  { title := truncate_str q.text 1600
  , description :=
      "[View on Titanic](https://blacker.caltech.edu/quotes/?q=" ++ toString q.id ++ ")"
  , color := 0
  , footerText := "Tags: " ++ truncate_str ((q.tags).getD "") 200 }

/-- Concrete quotes used by the witness statements. -/
def qa : Quote := ⟨1, "a", none⟩

def qb : Quote := ⟨2, "b", some "t"⟩

def qc : Quote := ⟨3, "c", none⟩

def qd : Quote := ⟨4, "d", none⟩

theorem initialSeen_eq (store : List Quote) : initialSeen store = idsFinset store := by
  simp [initialSeen, update_seen]

theorem mem_idsFinset {x : Int} {store : List Quote} :
    x ∈ idsFinset store ↔ ∃ q ∈ store, q.id = x := by
  simp [idsFinset]

theorem filter_self_ids (s : List Quote) :
    s.filter (fun q => decide (q.id ∉ idsFinset s)) = [] := by
  rw [List.filter_eq_nil_iff]
  intro q hq
  simp [mem_idsFinset]
  exact ⟨q, hq, rfl⟩

theorem batch_of_append (s a : List Quote)
    (hdisj : (s.map Quote.id).Disjoint (a.map Quote.id)) :
    (get_new_and_update_seen (idsFinset s) (s ++ a)).1 = a := by
  unfold get_new_and_update_seen
  rw [List.filter_append, filter_self_ids]
  simp only [List.nil_append]
  rw [List.filter_eq_self]
  intro q hq
  simp only [decide_eq_true_eq]
  intro hmem
  rcases mem_idsFinset.mp hmem with ⟨p, hp, hpq⟩
  exact hdisj (List.mem_map_of_mem Quote.id hp) (hpq ▸ List.mem_map_of_mem Quote.id hq)

theorem seen_of_append (s a : List Quote) :
    (get_new_and_update_seen (idsFinset s) (s ++ a)).2 = idsFinset (s ++ a) := by
  unfold get_new_and_update_seen update_seen
  rw [Finset.union_eq_right]
  intro x hx
  rcases mem_idsFinset.mp hx with ⟨q, hq, hqx⟩
  exact mem_idsFinset.mpr ⟨q, List.mem_append_left a hq, hqx⟩

theorem idsFinset_filter_not_seen (seen : Finset Int) (store : List Quote) :
    idsFinset (store.filter (fun q => decide (q.id ∉ seen))) = idsFinset store \ seen := by
  ext x
  simp only [mem_idsFinset, Finset.mem_sdiff, List.mem_filter, decide_eq_true_eq]
  constructor
  · rintro ⟨q, ⟨hq, hid⟩, rfl⟩
    exact ⟨⟨q, hq, rfl⟩, hid⟩
  · rintro ⟨⟨q, hq, rfl⟩, hx⟩
    exact ⟨q, ⟨hq, hx⟩, rfl⟩

/-- C1: starting from a store `base` whose ids the worker snapshots as seen
at startup, if between consecutive drains the external writer appends the
record lists `apps[0], apps[1], ...` (all ids distinct, as the store
assigns unique ids), then the drains forward exactly those batches: drain
`i` forwards exactly the records of `apps[i]`, each exactly once, and no id
forwarded by an earlier drain — and no id pre-existing at startup — is ever
forwarded again. -/
theorem exactly_once_delivery (base : List Quote) (apps : List (List Quote))
    (hnodup : ((base ++ apps.flatten).map Quote.id).Nodup) :
    runDrains (initialSeen base) (appendRun base apps) = apps := by
  induction apps generalizing base with
  | nil => simp [appendRun, runDrains]
  | cons a rest ih =>
    rw [List.flatten_cons, ← List.append_assoc] at hnodup
    have hdisj : (base.map Quote.id).Disjoint (a.map Quote.id) := by
      simp only [List.map_append] at hnodup
      have h1 := hnodup.of_append_left
      rw [List.nodup_append] at h1
      exact h1.2.2
    simp only [appendRun, runDrains, initialSeen_eq]
    rw [batch_of_append base a hdisj, seen_of_append base a, ← initialSeen_eq]
    exact congrArg (a :: ·) (ih (base ++ a) hnodup)

/-- Witness for C1 at the concrete run of the spec's Scenarios A–C: store
starts as `[qa]`, one drain after appending `[qb]`, one more after
appending `[qc, qd]`. -/
theorem exactly_once_delivery_witness :
    (([qa] ++ [[qb], [qc, qd]].flatten).map Quote.id).Nodup ∧
    runDrains (initialSeen [qa]) (appendRun [qa] [[qb], [qc, qd]]) = [[qb], [qc, qd]] :=
  ⟨by decide, exactly_once_delivery [qa] [[qb], [qc, qd]] (by decide)⟩

/-- C4: the code's seen-set update (`INSERT OR REPLACE ... SELECT id from
quotes.quotes`, i.e. union with all ids currently in the store) produces
exactly the same seen set as the spec's step of merging only
`new_ids = all_ids_in_store − SeenTracker`, for every prior seen set and
store contents. -/
theorem merge_step_equivalence (seen : Finset Int) (store : List Quote) :
    update_seen seen store = spec_merge_step seen store := by
  simp [update_seen, spec_merge_step, Finset.union_sdiff_self_eq_union]

/-- C6: the seen set is initialized at startup to exactly the id set
currently present in the store, every drain transforms it by union with the
ids of the batch of newly discovered records, and no drain ever removes an
id from it. -/
theorem seen_tracker_invariant :
    (∀ store : List Quote, initialSeen store = idsFinset store) ∧
    (∀ (seen : Finset Int) (store : List Quote),
      (get_new_and_update_seen seen store).2 =
        seen ∪ idsFinset (get_new_and_update_seen seen store).1 ∧
      seen ⊆ (get_new_and_update_seen seen store).2) := by
  refine ⟨initialSeen_eq, fun seen store => ⟨?_, ?_⟩⟩
  · show update_seen seen store = seen ∪ idsFinset (store.filter _)
    rw [idsFinset_filter_not_seen, Finset.union_sdiff_self_eq_union]
    rfl
  · exact Finset.subset_union_left

/-- C7: a drain that runs when every id in the store is already in the seen
set forwards no records and leaves the seen set unchanged. -/
theorem idempotent_empty_drain (seen : Finset Int) (store : List Quote)
    (h : idsFinset store ⊆ seen) :
    get_new_and_update_seen seen store = ([], seen) := by
  have h1 : store.filter (fun q => decide (q.id ∉ seen)) = [] := by
    rw [List.filter_eq_nil_iff]
    intro q hq
    simp only [decide_eq_true_eq, not_not]
    exact h (mem_idsFinset.mpr ⟨q, hq, rfl⟩)
  have h2 : seen ∪ idsFinset store = seen := Finset.union_eq_left.mpr h
  unfold get_new_and_update_seen update_seen
  rw [h1, h2]

/-- Witness for C7 at the spec's Scenario A: store `{1,2,3}` with
`SeenTracker = {1,2,3}` drains to nothing. -/
theorem idempotent_empty_drain_witness :
    idsFinset [qa, qb, qc] ⊆ idsFinset [qa, qb, qc] ∧
    get_new_and_update_seen (idsFinset [qa, qb, qc]) [qa, qb, qc] =
      ([], idsFinset [qa, qb, qc]) :=
  ⟨Finset.Subset.refl _, idempotent_empty_drain _ _ (Finset.Subset.refl _)⟩

/-- C2 counterexample: the query of `get_new_and_update_seen` carries no
`ORDER BY`, so the batch comes back in the store's enumeration order; when
the store enumerates id 2 before id 1 with nothing yet seen, the batch ids
are `[2, 1]`, which is not strictly ascending. -/
theorem deterministic_batch_order_counterexample :
    ¬ (((get_new_and_update_seen (∅ : Finset Int) [qb, qa]).1).map Quote.id).Sorted
        (· < ·) := by
  decide

/-- C2 (amended): within a single drain the batch preserves the store's
enumeration order — the code imposes no ordering of its own — so the
forwarded records are strictly ascending by id whenever the store
enumerates its rows in strictly ascending id order. -/
theorem deterministic_batch_order (seen : Finset Int) (store : List Quote)
    (h : (store.map Quote.id).Sorted (· < ·)) :
    (((get_new_and_update_seen seen store).1).map Quote.id).Sorted (· < ·) := by
  have hsub :
      ((store.filter (fun q => decide (q.id ∉ seen))).map Quote.id).Sublist
        (store.map Quote.id) :=
    (List.filter_sublist store).map Quote.id
  exact List.Pairwise.sublist hsub h

/-- Witness for C2 (amended) at a store sorted ascending by id. -/
theorem deterministic_batch_order_witness :
    (([qa, qb, qc].map Quote.id).Sorted (· < ·)) ∧
    (((get_new_and_update_seen (idsFinset [qa]) [qa, qb, qc]).1).map Quote.id).Sorted
      (· < ·) :=
  ⟨by decide, deterministic_batch_order (idsFinset [qa]) [qa, qb, qc] (by decide)⟩

/-- C3 counterexample: with the store attach failing (`QuoteWatcher::new`
returns an error so the worker thread panics at
`expect("Couldn't create watcher")`), the setup sequence of `main`
nevertheless spawns the DeliveryPump task — `create_poller` returns `Ok`
before the spawned thread ever runs `QuoteWatcher::new`, and
`tokio::spawn(poller_task)` is unconditional — refuting "aborts before any
ChangeSource, QueryWorker drain, or DeliveryPump begins running". -/
theorem startup_fatal_counterexample :
    ¬ ((setup (.error "Couldn't create watcher") (.ok ()) true []).worker =
          WorkerResult.startupPanic "Couldn't create watcher" →
        (setup (.error "Couldn't create watcher") (.ok ()) true []).deliveryPumpSpawned
          = false) := by
  decide

/-- C3 (amended): if opening or attaching the quotes store fails, the
worker thread panics before entering its receive loop: it performs zero
drains and forwards zero records (and its vital shutdown token is dropped,
requesting process shutdown); the DeliveryPump task and the file watcher
are nevertheless started by the setup sequence, which does not observe the
worker's store-open outcome. -/
theorem startup_failure_halts_worker (msg : String) (watchReg : Except String Unit)
    (recordOpen : Bool) (inputs : List (Except String (List Quote))) :
    (setup (.error msg) watchReg recordOpen inputs).worker =
        WorkerResult.startupPanic msg ∧
    workerForwarded (setup (.error msg) watchReg recordOpen inputs).worker = [] ∧
    workerDrainCount (setup (.error msg) watchReg recordOpen inputs).worker = 0 ∧
    (setup (.error msg) watchReg recordOpen inputs).deliveryPumpSpawned = true := by
  cases watchReg <;> exact ⟨rfl, rfl, rfl, rfl⟩

/-- C5: in every drain, every `forward` event of the drain's trace is
preceded by the `commit` event of that drain's transaction: no record is
forwarded from an uncommitted drain (when the commit fails, the trace ends
in a fatal exit and contains no forward at all). -/
theorem forward_only_after_commit (commitOk : Bool) (seen : Finset Int)
    (store : List Quote) (i : Nat) (q : Quote)
    (h : (drainTrace commitOk seen store).get? i = some (Event.forward q)) :
    ∃ j, j < i ∧ (drainTrace commitOk seen store).get? j = some Event.commit := by
  cases commitOk with
  | false =>
    exfalso
    rcases i with _ | _ | _ | n <;>
      simp [drainTrace, List.get?_cons_succ, List.get?_cons_zero, List.get?_nil] at h
  | true =>
    have hi : 3 ≤ i := by
      rcases i with _ | _ | _ | n
      · simp [drainTrace] at h
      · simp [drainTrace] at h
      · simp [drainTrace] at h
      · omega
    exact ⟨2, by omega, by simp [drainTrace]⟩

/-- Witness for C5: a drain of store `[qa]` with nothing seen; the forward
of `qa` sits at index 3 of the trace, after the commit at index 2. -/
theorem forward_only_after_commit_witness :
    (drainTrace true ∅ [qa]).get? 3 = some (Event.forward qa) ∧
    ∃ j, j < 3 ∧ (drainTrace true ∅ [qa]).get? j = some Event.commit :=
  ⟨by decide, forward_only_after_commit true ∅ [qa] 3 qa (by decide)⟩

/-- C8: the notification callback performs exactly one non-blocking
`try_send` per file-modification event and discards its result: a push onto
a closed channel is dropped silently (channel state unchanged), a push onto
a full channel is dropped silently, and otherwise exactly one signal is
enqueued; the callback is a total function raising no error. -/
theorem fs_watcher_push_policy (ch : WakeChannel) :
    (ch.closed = true → fs_watcher_callback ch = ch) ∧
    (ch.closed = false → ch.capacity ≤ ch.buffered → fs_watcher_callback ch = ch) ∧
    (ch.closed = false → ch.buffered < ch.capacity →
      fs_watcher_callback ch = { ch with buffered := ch.buffered + 1 }) := by
  refine ⟨fun hc => ?_, fun hc hf => ?_, fun hc hb => ?_⟩
  · simp [fs_watcher_callback, try_send, hc]
  · simp [fs_watcher_callback, try_send, hc, hf]
  · simp [fs_watcher_callback, try_send, hc, not_le.mpr hb]

/-- Witness for C8: a closed channel, a full channel (3 of 3 buffered), and
a channel with room. -/
theorem fs_watcher_push_policy_witness :
    fs_watcher_callback ⟨0, 3, true⟩ = ⟨0, 3, true⟩ ∧
    fs_watcher_callback ⟨3, 3, false⟩ = ⟨3, 3, false⟩ ∧
    fs_watcher_callback ⟨0, 3, false⟩ = ⟨1, 3, false⟩ :=
  ⟨(fs_watcher_push_policy ⟨0, 3, true⟩).1 rfl,
   (fs_watcher_push_policy ⟨3, 3, false⟩).2.1 rfl (by decide),
   (fs_watcher_push_policy ⟨0, 3, false⟩).2.2 rfl (by decide)⟩

/-- C9: when WakeChannel's producer side is closed the worker's loop ends
at the receive that observes closure, returning `exited` — never `fatal` —
after draining whatever signals were still pending; in particular when no
signal is pending the worker makes exactly one receive call, forwards
nothing, and exits cleanly. -/
theorem clean_shutdown (seen : Finset Int) :
    workerLoop true seen [] = LoopResult.exited [] ∧
    recvCalls [] = 1 ∧
    ∀ stores : List (List Quote),
      workerLoop true seen (stores.map Except.ok) =
        LoopResult.exited (runDrains seen stores) := by
  refine ⟨rfl, rfl, ?_⟩
  intro stores
  induction stores generalizing seen with
  | nil => rfl
  | cons s rest ih => simp [workerLoop, runDrains, ih]

/-- C10: `truncate_str s n` is the prefix of `s` holding the first
`min n (length s)` characters — in particular `s` itself whenever `s` has
at most `n` characters — and `send_quote` applies it with bound 1600 to the
quote text and bound 200 to the tags. -/
theorem truncate_str_bound (s : String) (n : Nat) :
    (truncate_str s n).data = s.data.take n ∧
    (truncate_str s n).data.length = min n s.data.length ∧
    (s.data.length ≤ n → truncate_str s n = s) ∧
    ∀ q : Quote, (send_quote q).title = truncate_str q.text 1600 ∧
      (send_quote q).footerText = "Tags: " ++ truncate_str ((q.tags).getD "") 200 := by
  have hdata : (truncate_str s n).data = s.data.take n := by
    unfold truncate_str
    split
    · next heq =>
      have hlen : s.data.length ≤ n := List.drop_eq_nil_iff.mp heq
      exact (List.take_of_length_le hlen).symm
    · rfl
  refine ⟨hdata, ?_, fun hle => ?_, fun q => ⟨rfl, rfl⟩⟩
  · rw [hdata, List.length_take]
  · unfold truncate_str
    rw [List.drop_eq_nil_iff.mpr hle]

/-- Witness for C10: a two-character string truncated with a larger bound
comes back unchanged. -/
theorem truncate_str_witness :
    ("ab".data.length ≤ 5) ∧ truncate_str "ab" 5 = "ab" :=
  ⟨by decide, (truncate_str_bound "ab" 5).2.2.1 (by decide)⟩

end Hellquotes
